import Mathlib

/-!
Shallow embedding of `loader_plugin.py`, an ESP8266 firmware loader script.

The script decodes a chained firmware-image format from a flat binary:
an 8-byte image header (struct format `<4BI`) followed by `number_of_segments`
segment records, each an 8-byte segment header (struct format `<II`,
little-endian `mapped_address` then `size`) followed by `size` data bytes.

The byte source (ghidra's `getBytes`) is modelled as a list of byte values
with a bounds-checked read that fails (returns `none`) when the requested
range is unavailable; a raised exception is modelled as `none` propagating
outward, mirroring Python exception flow. Addresses (`toAddr`) are plain
naturals. The ghidra memory-map side effects (`createByteMappedBlock`,
`setWrite`, `setExecute`, `addEntryPoint`) are modelled as an event trace.
-/

/-- A byte value (0..255 for genuine byte sources). -/
abbrev Byte := Nat

/-- The flat binary the script walks over, `getBytes`-style random access. -/
abbrev ByteSource := List Byte

/-- Model of the byte-source read `getBytes(toAddr(offset), len)`: returns the
`len` bytes starting at `offset`, failing when the range is unavailable. -/
def readBytes (src : ByteSource) (offset len : Nat) : Option (List Byte) :=
  if offset + len ≤ src.length then some ((src.drop offset).take len) else none

/-- Little-endian value of a byte list (least significant byte first). -/
def leNum : List Byte → Nat
  | [] => 0
  | b :: bs => b + 256 * leNum bs

/-- `SEGMENTS_DEFAULT_NAME` from the script. -/
def SEGMENTS_DEFAULT_NAME : String := "Segment"

/-- `BOOTLOADER_SEGMENTS_NAME` from the script. -/
def BOOTLOADER_SEGMENTS_NAME : String := "bootloader"

/-- `BOOTLOADER_START_ADDRESS` from the script. -/
def BOOTLOADER_START_ADDRESS : Nat := 0

/-- `FIRMWARE_START_ADDRESS` from the script. -/
def FIRMWARE_START_ADDRESS : Nat := 0x1000

/-- `MemorySegmentInfo`: name, mapped start address, size, and the offset the
script records as `data_offset_in_binary` (what it passes to the byte-mapped
block as backing offset). -/
structure MemorySegmentInfo where
  name : String
  start_address : Nat
  size : Nat
  data_offset_in_binary : Nat
deriving Repr, DecidableEq

/-- `MemorySegmentInfo.HEADER_LEN`. -/
def MemorySegmentInfo.HEADER_LEN : Nat := 8

/-- `MemorySegmentInfo.from_program`: reads 8 bytes at `segment_start_address`,
unpacks them per `"<II"` as little-endian `mapped_address` then `segment_size`,
and constructs the record with `data_offset_in_binary = segment_start_address`
(the value the script passes as the fourth constructor argument). -/
def MemorySegmentInfo.from_program (src : ByteSource) (name : String)
    (segment_start_address : Nat) : Option MemorySegmentInfo :=
  (readBytes src segment_start_address MemorySegmentInfo.HEADER_LEN).map fun bs =>
    { name := name
      start_address := leNum (bs.take 4)
      size := leNum (bs.drop 4)
      data_offset_in_binary := segment_start_address }

/-- `ESP8266FirmwareMetaData`: the five header fields unpacked per `"<4BI"`
plus the segment list built by the walker. -/
structure ESP8266FirmwareMetaData where
  magic_char : Nat
  number_of_segments : Nat
  spi_flash_interface : Nat
  memory_info : Nat
  entry_point : Nat
  segments : List MemorySegmentInfo
deriving Repr, DecidableEq

/-- `ESP8266FirmwareMetaData.HEADER_LEN`. -/
def ESP8266FirmwareMetaData.HEADER_LEN : Nat := 8

/-- `struct.unpack("<4BI", bs)` on an 8-byte buffer: four unsigned 8-bit
fields, then one little-endian unsigned 32-bit field. -/
def unpackHeaderFields (bs : List Byte) : Nat × Nat × Nat × Nat × Nat :=
  (bs.getD 0 0, bs.getD 1 0, bs.getD 2 0, bs.getD 3 0, leNum (bs.drop 4))

/-- The image-header decode step of `ESP8266FirmwareMetaData.__init__`:
read `HEADER_LEN` bytes at `fw_start_address` and unpack per `"<4BI"`. -/
def decodeHeader (src : ByteSource) (fw_start_address : Nat) :
    Option (Nat × Nat × Nat × Nat × Nat) :=
  (readBytes src fw_start_address ESP8266FirmwareMetaData.HEADER_LEN).map unpackHeaderFields

/-- `ESP8266FirmwareMetaData._initialize_segments_list`: loop
`for segment_index in range(number_of_segments)`, building one
`MemorySegmentInfo.from_program` per iteration at the running cursor
`segments_start_address`, appending it, and advancing the cursor by
`new_segment.size + MemorySegmentInfo.HEADER_LEN`. The remaining iteration
count drives the recursion; `idx` is the current `segment_index`. -/
def initializeSegmentsList (src : ByteSource) (segments_name : String) :
    Nat → Nat → Nat → Option (List MemorySegmentInfo)
  | 0, _, _ => some []
  | count + 1, idx, cursor =>
    (MemorySegmentInfo.from_program src (segments_name ++ toString idx) cursor).bind fun seg =>
      (initializeSegmentsList src segments_name count (idx + 1)
          (cursor + seg.size + MemorySegmentInfo.HEADER_LEN)).map fun rest =>
        seg :: rest

/-- `ESP8266FirmwareMetaData.__init__`: unpack the 8-byte header at
`fw_start_address`, then build the segment list starting at
`fw_start_address + HEADER_LEN`. A raised exception anywhere is `none`. -/
def ESP8266FirmwareMetaData.init (src : ByteSource) (fw_start_address : Nat)
    (segments_name : String) : Option ESP8266FirmwareMetaData :=
  (decodeHeader src fw_start_address).bind fun fields =>
    match fields with
    | (magic_char, number_of_segments, spi_flash_interface, memory_info, entry_point) =>
      (initializeSegmentsList src segments_name number_of_segments 0
          (fw_start_address + ESP8266FirmwareMetaData.HEADER_LEN)).map fun segs =>
        ⟨magic_char, number_of_segments, spi_flash_interface, memory_info, entry_point, segs⟩

/-- One ghidra memory-map side effect issued by the script. -/
inductive MapEvent where
  | createBlock (name : String) (start_address : Nat) (data_offset : Nat) (size : Nat)
  | setWrite (name : String) (value : Bool)
  | setExecute (name : String) (value : Bool)
  | addEntryPoint (address : Nat)
deriving Repr, DecidableEq

/-- Whether an event is a `createByteMappedBlock` call. -/
def MapEvent.isCreate : MapEvent → Bool
  | MapEvent.createBlock _ _ _ _ => true
  | _ => false

/-- `create_mapped_segments`: for each segment in list order, call
`createByteMappedBlock(name, start_address, data_offset_in_binary, size)`,
then `setWrite(True)`, then `setExecute(True)` on the created block. -/
def create_mapped_segments : List MemorySegmentInfo → List MapEvent
  | [] => []
  | s :: rest =>
    MapEvent.createBlock s.name s.start_address s.data_offset_in_binary s.size ::
    MapEvent.setWrite s.name true ::
    MapEvent.setExecute s.name true ::
    create_mapped_segments rest

/-- `map_firmware`: decode the firmware metadata at `offset_in_binary`, map
all its segments, then `addEntryPoint(entry_point)`. The result is the event
trace; `none` models the exception propagating out. -/
def map_firmware (src : ByteSource) (offset_in_binary : Nat) (segment_name : String) :
    Option (List MapEvent) :=
  (ESP8266FirmwareMetaData.init src offset_in_binary segment_name).map fun fw =>
    create_mapped_segments fw.segments ++ [MapEvent.addEntryPoint fw.entry_point]

/-- `main`: `map_firmware(BOOTLOADER_START_ADDRESS, BOOTLOADER_SEGMENTS_NAME)`
then `map_firmware(FIRMWARE_START_ADDRESS, SEGMENTS_DEFAULT_NAME)`; an
uncaught exception in the first statement aborts before the second. -/
def loaderMain (src : ByteSource) : Option (List MapEvent) :=
  (map_firmware src BOOTLOADER_START_ADDRESS BOOTLOADER_SEGMENTS_NAME).bind fun e1 =>
    (map_firmware src FIRMWARE_START_ADDRESS SEGMENTS_DEFAULT_NAME).map fun e2 =>
      e1 ++ e2

/-- The region-processing calls `main` actually starts, in order: the first
call is always started; the second is started only when the first does not
raise (Python sequencing of two statements with exception propagation). -/
def mainRegionsAttempted (src : ByteSource) : List (Nat × String) :=
  match map_firmware src BOOTLOADER_START_ADDRESS BOOTLOADER_SEGMENTS_NAME with
  | none => [(BOOTLOADER_START_ADDRESS, BOOTLOADER_SEGMENTS_NAME)]
  | some _ => [(BOOTLOADER_START_ADDRESS, BOOTLOADER_SEGMENTS_NAME),
               (FIRMWARE_START_ADDRESS, SEGMENTS_DEFAULT_NAME)]

/-- Read-instrumented `_initialize_segments_list`: same walk, also returning
the `(offset, length)` of every `getBytes` call it issues, in order (the
failing read attempt included). -/
def initializeSegmentsListT (src : ByteSource) (segments_name : String) :
    Nat → Nat → Nat → Option (List MemorySegmentInfo) × List (Nat × Nat)
  | 0, _, _ => (some [], [])
  | count + 1, idx, cursor =>
    match MemorySegmentInfo.from_program src (segments_name ++ toString idx) cursor with
    | none => (none, [(cursor, MemorySegmentInfo.HEADER_LEN)])
    | some seg =>
      let rest := initializeSegmentsListT src segments_name count (idx + 1)
          (cursor + seg.size + MemorySegmentInfo.HEADER_LEN)
      (rest.1.map fun segs => seg :: segs, (cursor, MemorySegmentInfo.HEADER_LEN) :: rest.2)

/-- Read-instrumented `ESP8266FirmwareMetaData.__init__`: same decode, also
returning the `(offset, length)` of every `getBytes` call issued. -/
def ESP8266FirmwareMetaData.initT (src : ByteSource) (fw_start_address : Nat)
    (segments_name : String) :
    Option ESP8266FirmwareMetaData × List (Nat × Nat) :=
  match decodeHeader src fw_start_address with
  | none => (none, [(fw_start_address, ESP8266FirmwareMetaData.HEADER_LEN)])
  | some (magic_char, number_of_segments, spi_flash_interface, memory_info, entry_point) =>
    let w := initializeSegmentsListT src segments_name number_of_segments 0
        (fw_start_address + ESP8266FirmwareMetaData.HEADER_LEN)
    (w.1.map fun segs =>
        ⟨magic_char, number_of_segments, spi_flash_interface, memory_info, entry_point, segs⟩,
      (fw_start_address, ESP8266FirmwareMetaData.HEADER_LEN) :: w.2)

/-- The cursor discipline of the walker: the first descriptor was read at
`cursor`, and each later one at its predecessor's offset plus its
predecessor's `size` plus 8. -/
def walkChain (cursor : Nat) : List MemorySegmentInfo → Prop
  | [] => True
  | s :: rest =>
    s.data_offset_in_binary = cursor ∧
    walkChain (cursor + s.size + MemorySegmentInfo.HEADER_LEN) rest

/-- The end-to-end scenario buffer of the firmware format: an image header
(2 segments, entry point `0x12345678`), an 8-byte segment record mapping 8
data bytes at `0x40001000`, its data, a record mapping 4 data bytes at
`0x40003000`, and its data. 36 bytes in all. -/
def scenarioSrc : ByteSource :=
  [0x00, 0x02, 0x00, 0x00, 0x78, 0x56, 0x34, 0x12,
   0x00, 0x10, 0x00, 0x40, 0x08, 0x00, 0x00, 0x00,
   0xAA, 0xAA, 0xAA, 0xAA, 0xAA, 0xAA, 0xAA, 0xAA,
   0x00, 0x30, 0x00, 0x40, 0x04, 0x00, 0x00, 0x00,
   0xBB, 0xBB, 0xBB, 0xBB]

/-- The two segment descriptors the script derives from `scenarioSrc` at
region offset 0 (data offsets as the script computes them). -/
def scenarioSegs : List MemorySegmentInfo :=
  [⟨SEGMENTS_DEFAULT_NAME ++ toString 0, 0x40001000, 8, 8⟩,
   ⟨SEGMENTS_DEFAULT_NAME ++ toString 1, 0x40003000, 4, 24⟩]

/-- The firmware metadata the script derives from `scenarioSrc` at region
offset 0. -/
def scenarioFw : ESP8266FirmwareMetaData :=
  ⟨0, 2, 0, 0, 0x12345678, scenarioSegs⟩

/-- An 8-byte image header sample whose entry-point bytes are `E9 00 00 40`. -/
def headerSample : ByteSource :=
  [0xE9, 0x02, 0x00, 0x00, 0xE9, 0x00, 0x00, 0x40]

/-- The scenario image's segment descriptors under the bootloader naming
base. -/
def bootSegs : List MemorySegmentInfo :=
  [⟨BOOTLOADER_SEGMENTS_NAME ++ toString 0, 0x40001000, 8, 8⟩,
   ⟨BOOTLOADER_SEGMENTS_NAME ++ toString 1, 0x40003000, 4, 24⟩]

/-- The scenario image's firmware metadata under the bootloader naming base. -/
def bootFw : ESP8266FirmwareMetaData :=
  ⟨0, 2, 0, 0, 0x12345678, bootSegs⟩

/-- A full flash dump: the scenario image as bootloader region at offset 0,
zero padding, and a minimal zero-segment application image at offset 0x1000. -/
def fullDumpSrc : ByteSource :=
  scenarioSrc ++ (List.replicate (0x1000 - 36) 0 ++
    [0xE9, 0x00, 0x00, 0x00, 0x00, 0x00, 0x00, 0x00])

theorem readBytes_eq_some {src : ByteSource} {off len : Nat} {bs : List Byte} :
    readBytes src off len = some bs ↔
      off + len ≤ src.length ∧ bs = (src.drop off).take len := by
  unfold readBytes
  by_cases hle : off + len ≤ src.length <;> simp [hle, eq_comm]

theorem readBytes_isSome_iff (src : ByteSource) (off len : Nat) :
    (readBytes src off len).isSome ↔ off + len ≤ src.length := by
  unfold readBytes
  by_cases hle : off + len ≤ src.length <;> simp [hle]

theorem readBytes_length {src : ByteSource} {off len : Nat} {bs : List Byte}
    (h : readBytes src off len = some bs) : bs.length = len := by
  obtain ⟨hle, rfl⟩ := readBytes_eq_some.mp h
  simp [List.length_take, List.length_drop]
  omega

theorem readBytes_none {src : ByteSource} {off len : Nat}
    (h : src.length < off + len) : readBytes src off len = none := by
  unfold readBytes
  simp [Nat.not_le.mpr h]

theorem from_program_eq_some {src : ByteSource} {name : String} {cursor : Nat}
    {seg : MemorySegmentInfo} :
    MemorySegmentInfo.from_program src name cursor = some seg ↔
      ∃ bs, readBytes src cursor MemorySegmentInfo.HEADER_LEN = some bs ∧
        seg = ⟨name, leNum (bs.take 4), leNum (bs.drop 4), cursor⟩ := by
  unfold MemorySegmentInfo.from_program
  rw [Option.map_eq_some']
  constructor
  · rintro ⟨bs, hbs, hseg⟩
    exact ⟨bs, hbs, hseg.symm⟩
  · rintro ⟨bs, hbs, hseg⟩
    exact ⟨bs, hbs, hseg.symm⟩

theorem decodeHeader_eq_some {src : ByteSource} {off : Nat}
    {fields : Nat × Nat × Nat × Nat × Nat} :
    decodeHeader src off = some fields ↔
      ∃ bs, readBytes src off ESP8266FirmwareMetaData.HEADER_LEN = some bs ∧
        fields = unpackHeaderFields bs := by
  unfold decodeHeader
  rw [Option.map_eq_some']
  constructor
  · rintro ⟨bs, hbs, hf⟩
    exact ⟨bs, hbs, hf.symm⟩
  · rintro ⟨bs, hbs, hf⟩
    exact ⟨bs, hbs, hf.symm⟩

theorem walk_cons {src : ByteSource} {nm : String} {count idx cursor : Nat}
    {segs : List MemorySegmentInfo}
    (h : initializeSegmentsList src nm (count + 1) idx cursor = some segs) :
    ∃ seg rest,
      MemorySegmentInfo.from_program src (nm ++ toString idx) cursor = some seg ∧
      initializeSegmentsList src nm count (idx + 1)
        (cursor + seg.size + MemorySegmentInfo.HEADER_LEN) = some rest ∧
      segs = seg :: rest := by
  simp only [initializeSegmentsList, Option.bind_eq_some, Option.map_eq_some'] at h
  obtain ⟨seg, hseg, rest, hrest, hw⟩ := h
  exact ⟨seg, rest, hseg, hrest, hw.symm⟩

theorem init_eq_some {src : ByteSource} {R : Nat} {nm : String}
    {fw : ESP8266FirmwareMetaData} :
    ESP8266FirmwareMetaData.init src R nm = some fw ↔
      ∃ m n fl mi e segs,
        decodeHeader src R = some (m, n, fl, mi, e) ∧
        initializeSegmentsList src nm n 0 (R + ESP8266FirmwareMetaData.HEADER_LEN) = some segs ∧
        fw = ⟨m, n, fl, mi, e, segs⟩ := by
  unfold ESP8266FirmwareMetaData.init
  rw [Option.bind_eq_some]
  constructor
  · rintro ⟨⟨m, n, fl, mi, e⟩, hdec, hmap⟩
    rw [Option.map_eq_some'] at hmap
    obtain ⟨segs, hw, hfw⟩ := hmap
    exact ⟨m, n, fl, mi, e, segs, hdec, hw, hfw.symm⟩
  · rintro ⟨m, n, fl, mi, e, segs, hdec, hw, hfw⟩
    refine ⟨(m, n, fl, mi, e), hdec, ?_⟩
    rw [Option.map_eq_some']
    exact ⟨segs, hw, hfw.symm⟩

theorem walk_spec (src : ByteSource) (nm : String) :
    ∀ (count idx cursor : Nat) (segs : List MemorySegmentInfo),
      initializeSegmentsList src nm count idx cursor = some segs →
      segs.length = count ∧
      walkChain cursor segs ∧
      (∀ i (hi : i < segs.length), (segs.get ⟨i, hi⟩).name = nm ++ toString (idx + i)) ∧
      (∀ s ∈ segs,
        ∃ bs, readBytes src s.data_offset_in_binary MemorySegmentInfo.HEADER_LEN = some bs ∧
          s.start_address = leNum (bs.take 4) ∧ s.size = leNum (bs.drop 4)) := by
  intro count
  induction count with
  | zero =>
    intro idx cursor segs h
    simp only [initializeSegmentsList, Option.some.injEq] at h
    subst h
    refine ⟨rfl, trivial, ?_, ?_⟩
    · intro i hi; simp at hi
    · intro s hs; simp at hs
  | succ n ih =>
    intro idx cursor segs h
    obtain ⟨seg, rest, hseg, hrest, rfl⟩ := walk_cons h
    obtain ⟨bs, hbs, rfl⟩ := from_program_eq_some.mp hseg
    obtain ⟨hlen, hchain, hnames, hreads⟩ := ih (idx + 1) _ rest hrest
    refine ⟨by simp [hlen], ⟨rfl, hchain⟩, ?_, ?_⟩
    · intro i hi
      match i with
      | 0 => simp
      | j + 1 =>
        have hj : j < rest.length := by simpa using hi
        have := hnames j hj
        simpa [Nat.add_assoc, Nat.add_comm 1 j] using this
    · intro s hs
      rcases List.mem_cons.mp hs with rfl | hmem
      · exact ⟨bs, hbs, rfl, rfl⟩
      · exact hreads s hmem

theorem walkChain_lowerBound :
    ∀ (segs : List MemorySegmentInfo) (cursor : Nat), walkChain cursor segs →
      ∀ s ∈ segs, cursor ≤ s.data_offset_in_binary := by
  intro segs
  induction segs with
  | nil => intro cursor _ s hs; simp at hs
  | cons a rest ih =>
    intro cursor hchain s hs
    obtain ⟨ha, hrest⟩ := hchain
    rcases List.mem_cons.mp hs with rfl | hmem
    · omega
    · have := ih _ hrest s hmem
      omega

theorem walkChain_consec :
    ∀ (segs : List MemorySegmentInfo) (cursor : Nat), walkChain cursor segs →
      ∀ i (hi : i + 1 < segs.length),
        (segs.get ⟨i + 1, hi⟩).data_offset_in_binary =
          (segs.get ⟨i, Nat.lt_of_succ_lt hi⟩).data_offset_in_binary +
          (segs.get ⟨i, Nat.lt_of_succ_lt hi⟩).size + MemorySegmentInfo.HEADER_LEN := by
  intro segs
  induction segs with
  | nil => intro cursor _ i hi; simp at hi
  | cons a rest ih =>
    intro cursor hchain i hi
    obtain ⟨ha, hrest⟩ := hchain
    match i with
    | 0 =>
      match rest, hrest with
      | b :: rest2, ⟨hb, _⟩ =>
        simp [List.get, ha, hb]
    | j + 1 =>
      have hj : j + 1 < rest.length := by simpa using hi
      simpa using ih _ hrest j hj

theorem walkChain_disjoint :
    ∀ (segs : List MemorySegmentInfo) (cursor : Nat), walkChain cursor segs →
      ∀ s ∈ segs, ∀ t ∈ segs,
        t.data_offset_in_binary + MemorySegmentInfo.HEADER_LEN ≤
          s.data_offset_in_binary + MemorySegmentInfo.HEADER_LEN ∨
        s.data_offset_in_binary + MemorySegmentInfo.HEADER_LEN + s.size ≤
          t.data_offset_in_binary := by
  intro segs
  induction segs with
  | nil => intro cursor _ s hs; simp at hs
  | cons a rest ih =>
    intro cursor hchain s hs t ht
    obtain ⟨ha, hrest⟩ := hchain
    rcases List.mem_cons.mp hs with rfl | hsmem
    · rcases List.mem_cons.mp ht with rfl | htmem
      · left; rfl
      · right
        have := walkChain_lowerBound rest _ hrest t htmem
        simp [MemorySegmentInfo.HEADER_LEN] at this ⊢
        omega
    · rcases List.mem_cons.mp ht with rfl | htmem
      · left
        have := walkChain_lowerBound rest _ hrest s hsmem
        simp [MemorySegmentInfo.HEADER_LEN] at this ⊢
        omega
      · exact ih _ hrest s hsmem t htmem

theorem walkT_of_walk (src : ByteSource) (nm : String) :
    ∀ (count idx cursor : Nat) (segs : List MemorySegmentInfo),
      initializeSegmentsList src nm count idx cursor = some segs →
      initializeSegmentsListT src nm count idx cursor =
        (some segs, segs.map fun s => (s.data_offset_in_binary, MemorySegmentInfo.HEADER_LEN)) := by
  intro count
  induction count with
  | zero =>
    intro idx cursor segs h
    simp only [initializeSegmentsList, Option.some.injEq] at h
    subst h
    rfl
  | succ n ih =>
    intro idx cursor segs h
    obtain ⟨seg, rest, hseg, hrest, rfl⟩ := walk_cons h
    have hoff : seg.data_offset_in_binary = cursor := by
      obtain ⟨bs, _, rfl⟩ := from_program_eq_some.mp hseg
      rfl
    simp only [initializeSegmentsListT, hseg, ih (idx + 1) _ rest hrest]
    simp [hoff]

theorem initT_of_init {src : ByteSource} {R : Nat} {nm : String}
    {fw : ESP8266FirmwareMetaData}
    (h : ESP8266FirmwareMetaData.init src R nm = some fw) :
    ESP8266FirmwareMetaData.initT src R nm =
      (some fw, (R, ESP8266FirmwareMetaData.HEADER_LEN) ::
        fw.segments.map fun s => (s.data_offset_in_binary, MemorySegmentInfo.HEADER_LEN)) := by
  obtain ⟨m, n, fl, mi, e, segs, hdec, hw, rfl⟩ := init_eq_some.mp h
  simp only [ESP8266FirmwareMetaData.initT, hdec, walkT_of_walk src nm n 0 _ segs hw]
  rfl

theorem create_mapped_segments_filter (l : List MemorySegmentInfo) :
    (create_mapped_segments l).filter MapEvent.isCreate =
      l.map fun s =>
        MapEvent.createBlock s.name s.start_address s.data_offset_in_binary s.size := by
  induction l with
  | nil => rfl
  | cons a rest ih =>
    simp [create_mapped_segments, List.filter, MapEvent.isCreate, ih]

theorem create_mapped_segments_mem {l : List MemorySegmentInfo} {s : MemorySegmentInfo}
    (hs : s ∈ l) :
    MapEvent.setWrite s.name true ∈ create_mapped_segments l ∧
    MapEvent.setExecute s.name true ∈ create_mapped_segments l := by
  induction l with
  | nil => simp at hs
  | cons a rest ih =>
    rcases List.mem_cons.mp hs with rfl | hmem
    · simp [create_mapped_segments]
    · obtain ⟨h1, h2⟩ := ih hmem
      simp only [create_mapped_segments]
      exact ⟨List.mem_cons_of_mem _ (List.mem_cons_of_mem _ (List.mem_cons_of_mem _ h1)),
             List.mem_cons_of_mem _ (List.mem_cons_of_mem _ (List.mem_cons_of_mem _ h2))⟩

theorem getLast?_append_singleton {α : Type} (l : List α) (a : α) :
    (l ++ [a]).getLast? = some a := by
  induction l with
  | nil => rfl
  | cons b rest ih =>
    rw [List.cons_append]
    cases hr : rest ++ [a] with
    | nil => exact absurd hr (by simp)
    | cons c tl =>
      rw [List.getLast?_cons_cons, ← hr, ih]

theorem walkT_fst (src : ByteSource) (nm : String) :
    ∀ (count idx cursor : Nat),
      (initializeSegmentsListT src nm count idx cursor).1 =
        initializeSegmentsList src nm count idx cursor := by
  intro count
  induction count with
  | zero => intro idx cursor; rfl
  | succ n ih =>
    intro idx cursor
    simp only [initializeSegmentsListT, initializeSegmentsList]
    cases hfp : MemorySegmentInfo.from_program src (nm ++ toString idx) cursor with
    | none => rfl
    | some seg => simp [Option.bind, ih]

theorem initT_fst (src : ByteSource) (R : Nat) (nm : String) :
    (ESP8266FirmwareMetaData.initT src R nm).1 = ESP8266FirmwareMetaData.init src R nm := by
  unfold ESP8266FirmwareMetaData.initT ESP8266FirmwareMetaData.init
  cases hdec : decodeHeader src R with
  | none => rfl
  | some fields =>
    obtain ⟨m, n, fl, mi, e⟩ := fields
    simp [Option.bind, walkT_fst]

/-- C1: the claim says each segment's source offset equals the cursor of its
own 8-byte header plus 8 (so, for a region at offset 0, segment 0 would have
source offset 16 and segment 1 source offset 32). The code instead stores the
header cursor itself as `data_offset_in_binary`: on the scenario image it
produces offsets 8 and 24, not 16 and 32, contradicting the code's own
docstring for `data_offset_in_binary` ("the offset of the data in the
binary"). -/
theorem esp_C1_code_behavior :
    (ESP8266FirmwareMetaData.init scenarioSrc 0 SEGMENTS_DEFAULT_NAME).map
        (fun fw => fw.segments.map MemorySegmentInfo.data_offset_in_binary) =
      some [8, 24] ∧
    ¬ (ESP8266FirmwareMetaData.init scenarioSrc 0 SEGMENTS_DEFAULT_NAME).map
        (fun fw => fw.segments.map MemorySegmentInfo.data_offset_in_binary) =
      some [16, 32] := by
  constructor
  · rfl
  · intro h
    have : ([8, 24] : List Nat) = [16, 32] := by
      have h0 : (ESP8266FirmwareMetaData.init scenarioSrc 0 SEGMENTS_DEFAULT_NAME).map
          (fun fw => fw.segments.map MemorySegmentInfo.data_offset_in_binary) =
          some [8, 24] := rfl
      exact Option.some.inj ((h0.symm).trans h)
    simp at this

/-- C2: for every region decoded without error, consecutive segment
descriptors satisfy the cumulative-offset law
`segments[i+1].source_offset = segments[i].source_offset + segments[i].size + 8`. -/
theorem esp_C2 {src : ByteSource} {R : Nat} {nm : String} {fw : ESP8266FirmwareMetaData}
    (h : ESP8266FirmwareMetaData.init src R nm = some fw) :
    ∀ i (hi : i + 1 < fw.segments.length),
      (fw.segments.get ⟨i + 1, hi⟩).data_offset_in_binary =
        (fw.segments.get ⟨i, Nat.lt_of_succ_lt hi⟩).data_offset_in_binary +
        (fw.segments.get ⟨i, Nat.lt_of_succ_lt hi⟩).size + 8 := by
  obtain ⟨m, n, fl, mi, e, segs, hdec, hw, rfl⟩ := init_eq_some.mp h
  have hchain := (walk_spec src nm n 0 _ segs hw).2.1
  exact walkChain_consec segs _ hchain

/-- Witness for C2 at the scenario image: segment 1's offset 24 equals
segment 0's offset 8 plus its size 8 plus 8. -/
theorem esp_C2_witness :
    (scenarioSegs.get ⟨0 + 1, by decide⟩).data_offset_in_binary =
      (scenarioSegs.get ⟨0, by decide⟩).data_offset_in_binary +
      (scenarioSegs.get ⟨0, by decide⟩).size + 8 := by
  have h : ESP8266FirmwareMetaData.init scenarioSrc 0 SEGMENTS_DEFAULT_NAME =
      some scenarioFw := rfl
  exact esp_C2 h 0 (by decide)

/-- C3: given that 8 bytes are available at `start_offset`, the image header
decoder returns exactly the four leading bytes as unsigned 8-bit fields
followed by the little-endian unsigned 32-bit value of bytes +4..+7 (so the
entry point round-trips those 4 bytes, e.g. `E9 00 00 40` gives `0x400000E9`),
and decoding succeeds exactly when 8 bytes are available, irrespective of the
magic byte's value (no validation). -/
theorem esp_C3 {src : ByteSource} {off : Nat} {bs : List Byte}
    (h : readBytes src off ESP8266FirmwareMetaData.HEADER_LEN = some bs) :
    bs.length = 8 ∧
    decodeHeader src off =
      some (bs.getD 0 0, bs.getD 1 0, bs.getD 2 0, bs.getD 3 0, leNum (bs.drop 4)) ∧
    ((decodeHeader src off).isSome ↔ off + 8 ≤ src.length) ∧
    leNum [0xE9, 0x00, 0x00, 0x40] = 0x400000E9 := by
  refine ⟨readBytes_length h, ?_, ?_, by decide⟩
  · simp [decodeHeader, h, unpackHeaderFields]
  · have hle : off + ESP8266FirmwareMetaData.HEADER_LEN ≤ src.length :=
      (readBytes_eq_some.mp h).1
    have hsome : (decodeHeader src off).isSome := by simp [decodeHeader, h]
    exact iff_of_true hsome hle

/-- Witness for C3 on an 8-byte header sample with entry-point bytes
`E9 00 00 40`. -/
theorem esp_C3_witness :
    headerSample.length = 8 ∧
    decodeHeader headerSample 0 = some (0xE9, 0x02, 0x00, 0x00, 0x400000E9) ∧
    ((decodeHeader headerSample 0).isSome ↔ 0 + 8 ≤ headerSample.length) ∧
    leNum [0xE9, 0x00, 0x00, 0x40] = 0x400000E9 := by
  have h : readBytes headerSample 0 ESP8266FirmwareMetaData.HEADER_LEN =
      some headerSample := rfl
  exact esp_C3 h

/-- C4: a successful walk performs exactly `segment_count` iterations,
returning that many descriptors in iteration order; descriptor `i` is named
`naming_base ++ toString i`, its `mapped_address` and `size` are the two
little-endian 32-bit fields of the 8 bytes read at its cursor, and the cursor
chain starts at `first_header_offset` and advances by `8 + size` each step
(`walkChain`). -/
theorem esp_C4 {src : ByteSource} {nm : String} {count start : Nat}
    {segs : List MemorySegmentInfo}
    (h : initializeSegmentsList src nm count 0 start = some segs) :
    segs.length = count ∧
    walkChain start segs ∧
    (∀ i (hi : i < segs.length), (segs.get ⟨i, hi⟩).name = nm ++ toString i) ∧
    (∀ s ∈ segs,
      ∃ bs, readBytes src s.data_offset_in_binary 8 = some bs ∧
        s.start_address = leNum (bs.take 4) ∧ s.size = leNum (bs.drop 4)) := by
  obtain ⟨hlen, hchain, hnames, hreads⟩ := walk_spec src nm count 0 start segs h
  refine ⟨hlen, hchain, ?_, hreads⟩
  intro i hi
  simpa using hnames i hi

/-- Witness for C4 at the scenario image: the walk of its 2 declared segments
from offset 8 yields 2 descriptors, chained from cursor 8, the second one
named with index 1. -/
theorem esp_C4_witness :
    scenarioSegs.length = 2 ∧
    walkChain 8 scenarioSegs ∧
    (scenarioSegs.get ⟨1, by decide⟩).name = SEGMENTS_DEFAULT_NAME ++ toString 1 := by
  have h : initializeSegmentsList scenarioSrc SEGMENTS_DEFAULT_NAME 2 0 8 =
      some scenarioSegs := rfl
  obtain ⟨hl, hc, hn, _⟩ := esp_C4 h
  exact ⟨hl, hc, hn 1 (by rw [hl]; decide)⟩

/-- C5: region processing walks the segment table starting at
`region_start_offset + 8` (immediately after the 8-byte image header), and
the top-level driver attempts region processing first at offset 0 with naming
base "bootloader", then at offset 0x1000 with naming base "Segment" (both
attempted whenever the first does not raise). -/
theorem esp_C5 (src : ByteSource) :
    (∀ R nm fw, ESP8266FirmwareMetaData.init src R nm = some fw →
      initializeSegmentsList src nm fw.number_of_segments 0
        (R + ESP8266FirmwareMetaData.HEADER_LEN) = some fw.segments) ∧
    ((map_firmware src BOOTLOADER_START_ADDRESS BOOTLOADER_SEGMENTS_NAME).isSome →
      mainRegionsAttempted src =
        [(BOOTLOADER_START_ADDRESS, BOOTLOADER_SEGMENTS_NAME),
         (FIRMWARE_START_ADDRESS, SEGMENTS_DEFAULT_NAME)]) ∧
    BOOTLOADER_START_ADDRESS = 0 ∧ FIRMWARE_START_ADDRESS = 0x1000 ∧
    BOOTLOADER_SEGMENTS_NAME = "bootloader" ∧ SEGMENTS_DEFAULT_NAME = "Segment" := by
  refine ⟨?_, ?_, rfl, rfl, rfl, rfl⟩
  · intro R nm fw h
    obtain ⟨m, n, fl, mi, e, segs, hdec, hw, rfl⟩ := init_eq_some.mp h
    exact hw
  · intro hsome
    obtain ⟨evs, hevs⟩ := Option.isSome_iff_exists.mp hsome
    unfold mainRegionsAttempted
    rw [hevs]

/-- Witness for C5 at the scenario image: the decoded region's segment list
is the one walked from offset 0 + 8, and the driver attempts both regions in
order on this source. -/
theorem esp_C5_witness :
    initializeSegmentsList scenarioSrc SEGMENTS_DEFAULT_NAME
      scenarioFw.number_of_segments 0 (0 + ESP8266FirmwareMetaData.HEADER_LEN) =
      some scenarioFw.segments ∧
    mainRegionsAttempted scenarioSrc =
      [(BOOTLOADER_START_ADDRESS, BOOTLOADER_SEGMENTS_NAME),
       (FIRMWARE_START_ADDRESS, SEGMENTS_DEFAULT_NAME)] := by
  refine ⟨(esp_C5 scenarioSrc).1 0 SEGMENTS_DEFAULT_NAME scenarioFw rfl,
          (esp_C5 scenarioSrc).2.1 (by decide)⟩

/-- C6: a successful `map_firmware` maps each decoded segment exactly once,
in sequence order, as a block backed at its recorded source offset with its
size and mapped address, marks each created block writable and executable,
and registers the entry point as the final action, after all segments. -/
theorem esp_C6 {src : ByteSource} {R : Nat} {nm : String} {evs : List MapEvent}
    (h : map_firmware src R nm = some evs) :
    ∃ fw, ESP8266FirmwareMetaData.init src R nm = some fw ∧
      evs = create_mapped_segments fw.segments ++
        [MapEvent.addEntryPoint fw.entry_point] ∧
      evs.filter MapEvent.isCreate = fw.segments.map (fun s =>
        MapEvent.createBlock s.name s.start_address s.data_offset_in_binary s.size) ∧
      (∀ s ∈ fw.segments,
        MapEvent.setWrite s.name true ∈ evs ∧ MapEvent.setExecute s.name true ∈ evs) ∧
      evs.getLast? = some (MapEvent.addEntryPoint fw.entry_point) := by
  unfold map_firmware at h
  rw [Option.map_eq_some'] at h
  obtain ⟨fw, hfw, hevs⟩ := h
  subst hevs
  refine ⟨fw, hfw, rfl, ?_, ?_, ?_⟩
  · rw [List.filter_append, create_mapped_segments_filter]
    simp [MapEvent.isCreate]
  · intro s hs
    obtain ⟨h1, h2⟩ := create_mapped_segments_mem hs
    exact ⟨List.mem_append_left _ h1, List.mem_append_left _ h2⟩
  · exact getLast?_append_singleton _ _

/-- Witness for C6 on the scenario image: its event trace filters to one
create-block event per segment in order and ends with the entry-point
registration. -/
theorem esp_C6_witness :
    (create_mapped_segments scenarioSegs ++
        [MapEvent.addEntryPoint 0x12345678]).filter MapEvent.isCreate =
      scenarioSegs.map (fun s =>
        MapEvent.createBlock s.name s.start_address s.data_offset_in_binary s.size) ∧
    (create_mapped_segments scenarioSegs ++
        [MapEvent.addEntryPoint 0x12345678]).getLast? =
      some (MapEvent.addEntryPoint 0x12345678) := by
  have h : map_firmware scenarioSrc 0 SEGMENTS_DEFAULT_NAME =
      some (create_mapped_segments scenarioSegs ++
        [MapEvent.addEntryPoint 0x12345678]) := rfl
  obtain ⟨fw, hfw, hevs, hfilter, hperms, hlast⟩ := esp_C6 h
  have hfweq : fw = scenarioFw := by
    have h0 : ESP8266FirmwareMetaData.init scenarioSrc 0 SEGMENTS_DEFAULT_NAME =
        some scenarioFw := rfl
    exact Option.some.inj ((hfw.symm).trans h0)
  subst hfweq
  exact ⟨hfilter, hlast⟩

/-- C7: when fewer than 8 bytes are available at the region start offset, the
read fails, the header decoder fails, and no metadata object is produced (in
particular no zero-valued header). -/
theorem esp_C7 {src : ByteSource} {off : Nat} (nm : String)
    (h : src.length < off + 8) :
    readBytes src off ESP8266FirmwareMetaData.HEADER_LEN = none ∧
    decodeHeader src off = none ∧
    ESP8266FirmwareMetaData.init src off nm = none := by
  have hr : readBytes src off ESP8266FirmwareMetaData.HEADER_LEN = none := readBytes_none h
  refine ⟨hr, ?_, ?_⟩
  · simp [decodeHeader, hr]
  · simp [ESP8266FirmwareMetaData.init, decodeHeader, hr]

/-- Witness for C7 on the empty source. -/
theorem esp_C7_witness :
    readBytes ([] : ByteSource) 0 ESP8266FirmwareMetaData.HEADER_LEN = none ∧
    decodeHeader ([] : ByteSource) 0 = none ∧
    ESP8266FirmwareMetaData.init ([] : ByteSource) 0 BOOTLOADER_SEGMENTS_NAME = none :=
  esp_C7 BOOTLOADER_SEGMENTS_NAME (by decide)

/-- C8: if the 8-byte segment-header read at the current cursor runs past the
end of the byte source, the walk (with at least one iteration left) fails with
no result; conversely any successful walk only ever read within bounds — each
produced descriptor's header read fit inside the source, so an out-of-range
cursor (the model's analogue of offset overflow, offsets being unbounded
naturals) can never occur on a success. -/
theorem esp_C8 (src : ByteSource) (nm : String) :
    (∀ count idx cursor, src.length < cursor + 8 →
      initializeSegmentsList src nm (count + 1) idx cursor = none) ∧
    (∀ count idx cursor segs,
      initializeSegmentsList src nm count idx cursor = some segs →
      ∀ s ∈ segs, s.data_offset_in_binary + 8 ≤ src.length) := by
  constructor
  · intro count idx cursor h
    have hr : readBytes src cursor MemorySegmentInfo.HEADER_LEN = none := readBytes_none h
    simp [initializeSegmentsList, MemorySegmentInfo.from_program, hr]
  · intro count idx cursor segs h s hs
    obtain ⟨_, _, _, hreads⟩ := walk_spec src nm count idx cursor segs h
    obtain ⟨bs, hbs, _⟩ := hreads s hs
    exact (readBytes_eq_some.mp hbs).1

/-- Witness for C8: on the empty source a 1-iteration walk fails, and on the
scenario image every successful header read is in bounds (segment 0's read at
offset 8 ends at 16 ≤ 36). -/
theorem esp_C8_witness :
    initializeSegmentsList ([] : ByteSource) SEGMENTS_DEFAULT_NAME 1 0 0 = none ∧
    (8 : Nat) + 8 ≤ scenarioSrc.length := by
  constructor
  · exact (esp_C8 ([] : ByteSource) SEGMENTS_DEFAULT_NAME).1 0 0 0 (by decide)
  · exact (esp_C8 scenarioSrc SEGMENTS_DEFAULT_NAME).2 2 0 8 scenarioSegs rfl
      (scenarioSegs.get ⟨0, by decide⟩) (by decide)

theorem readBytes_append_left {l1 : ByteSource} {off len : Nat} {bs : List Byte}
    (h : readBytes l1 off len = some bs) (l2 : ByteSource) :
    readBytes (l1 ++ l2) off len = some bs := by
  obtain ⟨hle, rfl⟩ := readBytes_eq_some.mp h
  apply readBytes_eq_some.mpr
  constructor
  · rw [List.length_append]
    omega
  · rw [List.drop_append_of_le_length (by omega),
      List.take_append_of_le_length (by rw [List.length_drop]; omega)]

theorem from_program_append_left {l1 : ByteSource} {name : String} {cursor : Nat}
    {seg : MemorySegmentInfo}
    (h : MemorySegmentInfo.from_program l1 name cursor = some seg) (l2 : ByteSource) :
    MemorySegmentInfo.from_program (l1 ++ l2) name cursor = some seg := by
  obtain ⟨bs, hbs, rfl⟩ := from_program_eq_some.mp h
  exact from_program_eq_some.mpr ⟨bs, readBytes_append_left hbs l2, rfl⟩

theorem walk_append_left (l1 l2 : ByteSource) (nm : String) :
    ∀ (count idx cursor : Nat) (segs : List MemorySegmentInfo),
      initializeSegmentsList l1 nm count idx cursor = some segs →
      initializeSegmentsList (l1 ++ l2) nm count idx cursor = some segs := by
  intro count
  induction count with
  | zero =>
    intro idx cursor segs h
    simpa [initializeSegmentsList] using h
  | succ n ih =>
    intro idx cursor segs h
    obtain ⟨seg, rest, hseg, hrest, rfl⟩ := walk_cons h
    have h1 := from_program_append_left hseg l2
    have h2 := ih (idx + 1) _ rest hrest
    simp [initializeSegmentsList, h1, h2]

theorem init_append_left {l1 : ByteSource} {R : Nat} {nm : String}
    {fw : ESP8266FirmwareMetaData}
    (h : ESP8266FirmwareMetaData.init l1 R nm = some fw) (l2 : ByteSource) :
    ESP8266FirmwareMetaData.init (l1 ++ l2) R nm = some fw := by
  obtain ⟨m, n, fl, mi, e, segs, hdec, hw, rfl⟩ := init_eq_some.mp h
  obtain ⟨bs, hbs, hfields⟩ := decodeHeader_eq_some.mp hdec
  exact init_eq_some.mpr ⟨m, n, fl, mi, e, segs,
    decodeHeader_eq_some.mpr ⟨bs, readBytes_append_left hbs l2, hfields⟩,
    walk_append_left l1 l2 nm n 0 _ segs hw, rfl⟩

theorem fullDumpSrc_left_assoc :
    fullDumpSrc = (scenarioSrc ++ List.replicate (0x1000 - 36) 0) ++
      [0xE9, 0x00, 0x00, 0x00, 0x00, 0x00, 0x00, 0x00] := by
  unfold fullDumpSrc
  rw [List.append_assoc]

theorem bootPrefix_length :
    (scenarioSrc ++ List.replicate (0x1000 - 36) (0 : Byte)).length = 4096 := by
  rw [List.length_append, List.length_replicate]
  rfl

theorem fullDump_length : fullDumpSrc.length = 4104 := by
  rw [fullDumpSrc_left_assoc, List.length_append, bootPrefix_length]
  rfl

theorem fullDump_app_read :
    readBytes fullDumpSrc FIRMWARE_START_ADDRESS ESP8266FirmwareMetaData.HEADER_LEN =
      some [0xE9, 0x00, 0x00, 0x00, 0x00, 0x00, 0x00, 0x00] := by
  apply readBytes_eq_some.mpr
  constructor
  · rw [fullDump_length]
    decide
  · rw [fullDumpSrc_left_assoc,
      show (FIRMWARE_START_ADDRESS : Nat) =
        (scenarioSrc ++ List.replicate (0x1000 - 36) (0 : Byte)).length from
          bootPrefix_length.symm,
      List.drop_left]
    rfl

theorem fullDump_app_init :
    ESP8266FirmwareMetaData.init fullDumpSrc FIRMWARE_START_ADDRESS
      SEGMENTS_DEFAULT_NAME = some ⟨0xE9, 0, 0, 0, 0, []⟩ := by
  apply init_eq_some.mpr
  refine ⟨0xE9, 0, 0, 0, 0, [], ?_, rfl, rfl⟩
  exact decodeHeader_eq_some.mpr ⟨_, fullDump_app_read, rfl⟩

theorem fullDump_boot_init :
    ESP8266FirmwareMetaData.init fullDumpSrc BOOTLOADER_START_ADDRESS
      BOOTLOADER_SEGMENTS_NAME = some bootFw := by
  have h0 : ESP8266FirmwareMetaData.init scenarioSrc BOOTLOADER_START_ADDRESS
      BOOTLOADER_SEGMENTS_NAME = some bootFw := rfl
  exact init_append_left h0 _

theorem fullDump_boot_map :
    map_firmware fullDumpSrc BOOTLOADER_START_ADDRESS BOOTLOADER_SEGMENTS_NAME =
      some (create_mapped_segments bootSegs ++ [MapEvent.addEntryPoint 0x12345678]) := by
  unfold map_firmware
  rw [fullDump_boot_init]
  rfl

theorem fullDump_app_map :
    map_firmware fullDumpSrc FIRMWARE_START_ADDRESS SEGMENTS_DEFAULT_NAME =
      some [MapEvent.addEntryPoint 0] := by
  unfold map_firmware
  rw [fullDump_app_init]
  rfl

theorem fullDump_loaderMain :
    loaderMain fullDumpSrc =
      some ((create_mapped_segments bootSegs ++ [MapEvent.addEntryPoint 0x12345678]) ++
        [MapEvent.addEntryPoint 0]) := by
  unfold loaderMain
  rw [fullDump_boot_map, fullDump_app_map]
  rfl

/-- C9 counterexample: on the empty source the bootloader region's decoding
raises, and the driver then never attempts the application region — the
attempted-region list is only `[(0, "bootloader")]`, refuting the claim that
a bootloader-region error does not prevent attempting the application
region. -/
theorem esp_C9_counterexample :
    map_firmware ([] : ByteSource) BOOTLOADER_START_ADDRESS BOOTLOADER_SEGMENTS_NAME = none ∧
    mainRegionsAttempted [] = [(BOOTLOADER_START_ADDRESS, BOOTLOADER_SEGMENTS_NAME)] ∧
    (FIRMWARE_START_ADDRESS, SEGMENTS_DEFAULT_NAME) ∉ mainRegionsAttempted [] := by
  refine ⟨rfl, rfl, ?_⟩
  decide

/-- C9 amended: the two region-processing invocations share no decoding
state, but they are not error-independent: the driver attempts the
application region exactly when the bootloader region's processing does not
raise; a fatal bootloader-region error aborts `main` before the second
invocation. -/
theorem esp_C9_amended (src : ByteSource) :
    mainRegionsAttempted src =
      (if (map_firmware src BOOTLOADER_START_ADDRESS BOOTLOADER_SEGMENTS_NAME).isSome then
        [(BOOTLOADER_START_ADDRESS, BOOTLOADER_SEGMENTS_NAME),
         (FIRMWARE_START_ADDRESS, SEGMENTS_DEFAULT_NAME)]
      else [(BOOTLOADER_START_ADDRESS, BOOTLOADER_SEGMENTS_NAME)]) ∧
    (∀ evs, loaderMain src = some evs →
      ∃ e1 e2, map_firmware src BOOTLOADER_START_ADDRESS BOOTLOADER_SEGMENTS_NAME = some e1 ∧
        map_firmware src FIRMWARE_START_ADDRESS SEGMENTS_DEFAULT_NAME = some e2 ∧
        evs = e1 ++ e2) := by
  constructor
  · unfold mainRegionsAttempted
    cases hmf : map_firmware src BOOTLOADER_START_ADDRESS BOOTLOADER_SEGMENTS_NAME <;>
      simp [hmf]
  · intro evs h
    unfold loaderMain at h
    rw [Option.bind_eq_some] at h
    obtain ⟨e1, he1, hmap⟩ := h
    rw [Option.map_eq_some'] at hmap
    obtain ⟨e2, he2, hevs⟩ := hmap
    exact ⟨e1, e2, he1, he2, hevs.symm⟩

/-- Witness for the amended C9: on the scenario image both regions are
attempted, and on the full dump (both regions valid) the driver's run
decomposes into the bootloader invocation followed by the application
invocation, both succeeding. -/
theorem esp_C9_amended_witness :
    mainRegionsAttempted scenarioSrc =
      [(BOOTLOADER_START_ADDRESS, BOOTLOADER_SEGMENTS_NAME),
       (FIRMWARE_START_ADDRESS, SEGMENTS_DEFAULT_NAME)] ∧
    (map_firmware fullDumpSrc BOOTLOADER_START_ADDRESS BOOTLOADER_SEGMENTS_NAME).isSome ∧
    (map_firmware fullDumpSrc FIRMWARE_START_ADDRESS SEGMENTS_DEFAULT_NAME).isSome := by
  obtain ⟨e1, e2, he1, he2, -⟩ := (esp_C9_amended fullDumpSrc).2 _ fullDump_loaderMain
  refine ⟨?_, ?_, ?_⟩
  · rw [(esp_C9_amended scenarioSrc).1]
    rfl
  · rw [he1]
    rfl
  · rw [he2]
    rfl

/-- C10: a successful decode of one region declaring N segments issues
exactly N + 1 byte-source reads, all of length 8 — one image-header read at
the region offset and one per segment header at that segment's recorded
offset — and no read overlaps any segment's data bytes
`[offset + 8, offset + 8 + size)` (the byte source is a read-only value in
this model; the decode takes it unchanged). -/
theorem esp_C10 {src : ByteSource} {R : Nat} {nm : String}
    {fw : ESP8266FirmwareMetaData} {reads : List (Nat × Nat)}
    (h : ESP8266FirmwareMetaData.initT src R nm = (some fw, reads)) :
    reads = (R, 8) :: fw.segments.map (fun s => (s.data_offset_in_binary, 8)) ∧
    reads.length = fw.number_of_segments + 1 ∧
    (∀ p ∈ reads, p.2 = 8) ∧
    (∀ s ∈ fw.segments, ∀ p ∈ reads,
      p.1 + p.2 ≤ s.data_offset_in_binary + 8 ∨
      s.data_offset_in_binary + 8 + s.size ≤ p.1) := by
  have hinit : ESP8266FirmwareMetaData.init src R nm = some fw := by
    rw [← initT_fst, h]
  have htr := initT_of_init hinit
  rw [h] at htr
  have hreads : reads = (R, ESP8266FirmwareMetaData.HEADER_LEN) ::
      fw.segments.map (fun s => (s.data_offset_in_binary, MemorySegmentInfo.HEADER_LEN)) :=
    (Prod.mk.injEq _ _ _ _ ▸ htr).2
  obtain ⟨m, n, fl, mi, e, segs, hdec, hw, rfl⟩ := init_eq_some.mp hinit
  obtain ⟨hlen, hchain, -, -⟩ := walk_spec src nm n 0 _ segs hw
  refine ⟨hreads, ?_, ?_, ?_⟩
  · rw [hreads]
    simp [hlen]
  · intro p hp
    rw [hreads] at hp
    rcases List.mem_cons.mp hp with rfl | hmem
    · rfl
    · obtain ⟨s, -, rfl⟩ := List.mem_map.mp hmem
      rfl
  · intro s hs p hp
    rw [hreads] at hp
    have hlb := walkChain_lowerBound segs _ hchain s hs
    rcases List.mem_cons.mp hp with rfl | hmem
    · left
      simp only [ESP8266FirmwareMetaData.HEADER_LEN] at *
      omega
    · obtain ⟨t, ht, rfl⟩ := List.mem_map.mp hmem
      have := walkChain_disjoint segs _ hchain s hs t ht
      simp only [MemorySegmentInfo.HEADER_LEN] at this ⊢
      omega

/-- Witness for C10 at the scenario image: the instrumented decode issues the
three reads (0,8), (8,8), (24,8) — the image header plus one per segment —
and their count is the declared segment count plus one. -/
theorem esp_C10_witness :
    ([(0, 8), (8, 8), (24, 8)] : List (Nat × Nat)) =
      (0, 8) :: scenarioFw.segments.map (fun s => (s.data_offset_in_binary, 8)) ∧
    ([(0, 8), (8, 8), (24, 8)] : List (Nat × Nat)).length =
      scenarioFw.number_of_segments + 1 := by
  have h : ESP8266FirmwareMetaData.initT scenarioSrc 0 SEGMENTS_DEFAULT_NAME =
      (some scenarioFw, [(0, 8), (8, 8), (24, 8)]) := rfl
  exact ⟨(esp_C10 h).1, (esp_C10 h).2.1⟩
